import Mathlib

/-!
Verification of the ThisIsUS voice-assistant core
(`src/components/AssistantPanel.tsx` and collaborators).

The TypeScript source is shallowly embedded: pure helper functions become Lean
functions on `List ℕ` / `List ℤ` / `ℚ`; the stateful panel callbacks become
explicit state-passing functions on a `PanelState` record.  JavaScript machine
arithmetic is made explicit (`Int16Array` element conversion is modelled as
truncation followed by wrapping modulo 2^16); audio sample values and clock
times are modelled as rationals, which is exact for every operation the code
performs on them (multiplication/division by the power of two 32768 and
additions of durations are exact in binary floating point on the ranges
involved, and every float sample is a rational).
-/

namespace ThisIsUS

/-! ## Transport text codec (`encode` / `decode`, AssistantPanel.tsx lines 8-25)

`encode` packs a byte array into a binary string (`String.fromCharCode` per
byte, the identity on code points 0..255) and applies the browser's `btoa`;
`decode` applies `atob` and reads the code units back (`charCodeAt`).  We model
bytes as natural numbers < 256 and the btoa/atob pair by its RFC 4648
definition, operating three bytes / four characters at a time with `=` padding.
-/

def b64Alphabet : List Char :=
  "ABCDEFGHIJKLMNOPQRSTUVWXYZabcdefghijklmnopqrstuvwxyz0123456789+/".toList

def b64Char (n : ℕ) : Char := b64Alphabet.getD n 'A'

def b64Index (c : Char) : ℕ := b64Alphabet.findIdx (· == c)

/-- The spec's `binaryToTransportText`: the source's `encode` (bytes → base64 text). -/
def encode : List ℕ → List Char
  | [] => []
  | [a] =>
    [b64Char (a / 4), b64Char (a % 4 * 16), '=', '=']
  | [a, b] =>
    [b64Char (a / 4), b64Char (a % 4 * 16 + b / 16), b64Char (b % 16 * 4), '=']
  | a :: b :: c :: rest =>
    b64Char (a / 4) :: b64Char (a % 4 * 16 + b / 16) ::
    b64Char (b % 16 * 4 + c / 64) :: b64Char (c % 64) :: encode rest

/-- The spec's `transportTextToBinary`: the source's `decode` (base64 text → bytes),
processing one four-character group at a time; `=` padding may only appear at
the end of the final group, which is the only form `encode`/`btoa` produces. -/
def decode : List Char → List ℕ
  | c0 :: c1 :: c2 :: c3 :: rest =>
    if c2 = '=' then
      [b64Index c0 * 4 + b64Index c1 / 16]
    else if c3 = '=' then
      [b64Index c0 * 4 + b64Index c1 / 16,
       b64Index c1 % 16 * 16 + b64Index c2 / 4]
    else
      (b64Index c0 * 4 + b64Index c1 / 16) ::
      (b64Index c1 % 16 * 16 + b64Index c2 / 4) ::
      (b64Index c2 % 4 * 64 + b64Index c3) :: decode rest
  | _ => []

theorem b64Index_b64Char : ∀ n < 64, b64Index (b64Char n) = n := by decide

theorem b64Char_ne_pad : ∀ n < 64, b64Char n ≠ '=' := by decide

theorem decode_encode_aux :
    ∀ l : List ℕ, (∀ b ∈ l, b < 256) → decode (encode l) = l
  | [], _ => by simp [encode, decode]
  | [a], h => by
    have ha : a < 256 := h a (by simp)
    have e1 : b64Index (b64Char (a / 4)) = a / 4 := b64Index_b64Char _ (by omega)
    have e2 : b64Index (b64Char (a % 4 * 16)) = a % 4 * 16 := b64Index_b64Char _ (by omega)
    simp [encode, decode, e1, e2] <;> omega
  | [a, b], h => by
    have ha : a < 256 := h a (by simp)
    have hb : b < 256 := h b (by simp)
    have hne : b64Char (b % 16 * 4) ≠ '=' := b64Char_ne_pad _ (by omega)
    have e1 : b64Index (b64Char (a / 4)) = a / 4 := b64Index_b64Char _ (by omega)
    have e2 : b64Index (b64Char (a % 4 * 16 + b / 16)) = a % 4 * 16 + b / 16 :=
      b64Index_b64Char _ (by omega)
    have e3 : b64Index (b64Char (b % 16 * 4)) = b % 16 * 4 := b64Index_b64Char _ (by omega)
    simp [encode, decode, hne, e1, e2, e3] <;> omega
  | a :: b :: c :: rest, h => by
    have ha : a < 256 := h a (by simp)
    have hb : b < 256 := h b (by simp)
    have hc : c < 256 := h c (by simp)
    have ih := decode_encode_aux rest (fun x hx => h x (by simp [hx]))
    have hne2 : b64Char (b % 16 * 4 + c / 64) ≠ '=' := b64Char_ne_pad _ (by omega)
    have hne3 : b64Char (c % 64) ≠ '=' := b64Char_ne_pad _ (by omega)
    have e1 : b64Index (b64Char (a / 4)) = a / 4 := b64Index_b64Char _ (by omega)
    have e2 : b64Index (b64Char (a % 4 * 16 + b / 16)) = a % 4 * 16 + b / 16 :=
      b64Index_b64Char _ (by omega)
    have e3 : b64Index (b64Char (b % 16 * 4 + c / 64)) = b % 16 * 4 + c / 64 :=
      b64Index_b64Char _ (by omega)
    have e4 : b64Index (b64Char (c % 64)) = c % 64 := b64Index_b64Char _ (by omega)
    simp [encode, decode, hne2, hne3, e1, e2, e3, e4, ih] <;> omega

/-- C7: for every byte sequence `x`, decoding the transport-text encoding of
`x` yields exactly `x`: `transportTextToBinary (binaryToTransportText x) = x`. -/
theorem transport_text_roundtrip (x : List ℕ) (h : ∀ b ∈ x, b < 256) :
    decode (encode x) = x :=
  decode_encode_aux x h

/-- Witness for C7 at the concrete byte sequence `[104, 101, 108, 108, 111]`. -/
theorem transport_text_roundtrip_witness :
    decode (encode [104, 101, 108, 108, 111]) = [104, 101, 108, 108, 111] :=
  transport_text_roundtrip [104, 101, 108, 108, 111] (by decide)

/-! ## PCM codec (`createPcmBlob` lines 45-55, `decodeAudioData` lines 27-43)

`createPcmBlob` writes `data[i] * 32768.0` into an `Int16Array` slot.  The
JavaScript `Int16Array` element conversion is: truncate the number toward
zero, reduce modulo 2^16, reinterpret as signed — with NO clamping, so 32768
wraps to -32768.  `decodeAudioData` reads the bytes back as an `Int16Array`
and divides each element by 32768.0.

Samples are modelled as rationals.  This is exact for the actual float
program: multiplying a float by the power of two 32768 only shifts the
exponent (no rounding), truncation is exact, and dividing a 16-bit integer by
32768 is exact in both float64 and float32; every float sample is itself a
rational, so theorems quantified over ℚ cover all float inputs. -/

/-- ECMAScript `ToIntegerOrInfinity` on a finite number: truncation toward
zero. -/
def jsTrunc (q : ℚ) : ℤ := if 0 ≤ q then ⌊q⌋ else ⌈q⌉

/-- Reduce an integer modulo 2^16 and reinterpret as a signed 16-bit value:
the second half of the ECMAScript `ToInt16` conversion used by `Int16Array`
element writes. -/
def toInt16 (i : ℤ) : ℤ :=
  if i % 65536 < 32768 then i % 65536 else i % 65536 - 65536

/-- The full `Int16Array` element conversion applied to a number. -/
def jsToInt16 (q : ℚ) : ℤ := toInt16 (jsTrunc q)

/-- One sample of `createPcmBlob`: `int16[i] = data[i] * 32768.0`. -/
def encodeSample (s : ℚ) : ℤ := jsToInt16 (s * 32768)

/-- One sample of `decodeAudioData`: `channelData[i] = dataInt16[...] / 32768.0`. -/
def decodeSample (v : ℤ) : ℚ := (v : ℚ) / 32768

/-- The source's `createPcmBlob` at the `Int16Array` level: every float sample is converted
by the unclamped `Int16Array` write.  (The subsequent byte packing and base64
wrapping is the `encode` function above.) -/
def createPcmBlob (data : List ℚ) : List ℤ := data.map encodeSample

/-- The source's `decodeAudioData`: views the received bytes as an `Int16Array`
`dataInt16`, computes `frameCount = dataInt16.length / numChannels`, and for
each channel `ch` produces `frameCount` floats
`dataInt16[i * numChannels + ch] / 32768.0`. -/
def decodeAudioData (dataInt16 : List ℤ) (numChannels : ℕ) : List (List ℚ) :=
  (List.range numChannels).map fun ch =>
    (List.range (dataInt16.length / numChannels)).map fun i =>
      decodeSample (dataInt16.getD (i * numChannels + ch) 0)

theorem toInt16_eq_self {i : ℤ} (h1 : -32768 ≤ i) (h2 : i ≤ 32767) :
    toInt16 i = i := by
  unfold toInt16; split <;> omega

theorem toInt16_range (i : ℤ) : -32768 ≤ toInt16 i ∧ toInt16 i ≤ 32767 := by
  unfold toInt16; split <;> omega

/-- Pointwise round-trip bound on the half-open interval `[-1, 1)`, where the
scaled sample does not reach the wrapping point 32768. -/
theorem pcm_sample_roundtrip {s : ℚ} (h1 : -1 ≤ s) (h2 : s < 1) :
    |decodeSample (encodeSample s) - s| < 1 / 32768 := by
  have hx1 : (-32768 : ℚ) ≤ s * 32768 := by linarith
  have hx2 : s * 32768 < 32768 := by linarith
  set x := s * 32768 with hxdef
  have htr : (-32768 : ℤ) ≤ jsTrunc x ∧ jsTrunc x ≤ 32767 ∧
      |(jsTrunc x : ℚ) - x| < 1 := by
    unfold jsTrunc; split
    · next h0 =>
      have hfl : (0 : ℤ) ≤ ⌊x⌋ := Int.floor_nonneg.mpr h0
      have hup : ⌊x⌋ < 32768 := by
        have : ⌊x⌋ < ((32768 : ℤ) : ℚ) → ⌊x⌋ < 32768 := fun h => by exact_mod_cast h
        exact Int.floor_lt.mpr (by exact_mod_cast hx2)
      have hle := Int.floor_le x
      have hgt := Int.lt_floor_add_one x
      refine ⟨by omega, by omega, ?_⟩
      rw [abs_lt]
      constructor <;> [skip; skip] <;> push_cast <;> linarith
    · next h0 =>
      push_neg at h0
      have hlc := Int.le_ceil x
      have huc := Int.ceil_lt_add_one x
      have hcp : ⌈x⌉ ≤ (0 : ℤ) := Int.ceil_le.mpr (by exact_mod_cast le_of_lt h0)
      have hlow : (-32768 : ℤ) ≤ ⌈x⌉ := by
        have : ((-32768 : ℤ) : ℚ) ≤ (⌈x⌉ : ℚ) := le_trans (by exact_mod_cast hx1) hlc
        exact_mod_cast this
      refine ⟨hlow, by omega, ?_⟩
      rw [abs_lt]
      constructor <;> [skip; skip] <;> push_cast <;> linarith
  obtain ⟨ha, hb, hc⟩ := htr
  have henc : encodeSample s = jsTrunc x := by
    unfold encodeSample jsToInt16
    rw [← hxdef]
    exact toInt16_eq_self ha hb
  rw [henc]
  unfold decodeSample
  have hrw : (jsTrunc x : ℚ) / 32768 - s = ((jsTrunc x : ℚ) - x) / 32768 := by
    rw [hxdef]; ring
  rw [hrw, abs_lt] at *
  obtain ⟨hc1, hc2⟩ := hc
  constructor <;> linarith

theorem decodeSample_range {v : ℤ} (h1 : -32768 ≤ v) (h2 : v ≤ 32767) :
    -1 ≤ decodeSample v ∧ decodeSample v < 1 := by
  have h1q : ((-32768 : ℤ) : ℚ) ≤ (v : ℚ) := by exact_mod_cast h1
  have h2q : (v : ℚ) ≤ ((32767 : ℤ) : ℚ) := by exact_mod_cast h2
  unfold decodeSample
  push_cast at h1q h2q
  constructor <;> linarith

theorem range_map_getD (l : List ℤ) :
    (List.range l.length).map (fun i => decodeSample (l.getD i 0))
      = l.map decodeSample := by
  apply List.ext_getElem
  · simp
  · intro i h1 h2
    simp only [List.getElem_map, List.getElem_range]
    rw [List.getD_eq_getElem _ _ (by simpa using h2)]

theorem decodeAudioData_mono (l : List ℤ) :
    decodeAudioData l 1 = [l.map decodeSample] := by
  unfold decodeAudioData
  rw [show List.range 1 = [0] from rfl]
  simp only [List.map_cons, List.map_nil, Nat.div_one, mul_one, add_zero]
  rw [range_map_getD]

/-- C6 counterexample: at the in-range sample `s = 1` the unclamped encoder
computes `1 * 32768 = 32768`, which the `Int16Array` write wraps to `-32768`,
so the decoded sample is `-1`: the per-sample error is `2`, not within
`1/32768`. -/
theorem encodeSample_one : encodeSample 1 = -32768 := by
  have h : ((1 : ℚ) * 32768) = ((32768 : ℤ) : ℚ) := by norm_num
  unfold encodeSample jsToInt16 jsTrunc
  rw [h, if_pos (by norm_num), Int.floor_intCast]
  decide

theorem pcm_roundtrip_fails_at_one :
    decodeSample (encodeSample 1) = -1 ∧
      ¬ |decodeSample (encodeSample 1) - 1| ≤ 1 / 32768 := by
  have h : decodeSample (encodeSample 1) = -1 := by
    rw [encodeSample_one]; unfold decodeSample; norm_num
  refine ⟨h, ?_⟩
  rw [h, show |(-1 : ℚ) - 1| = 2 by norm_num]
  norm_num

/-- C6 (amended): for every sample array with all values in the half-open
interval `[-1, 1)`, decoding the PCM16 encoding recovers each sample within
`1/32768`.  (At `s = 1`, allowed by the claim's closed interval `[-1,1]`, the
unclamped encoder wraps and the error is 2.) -/
theorem pcm_roundtrip_within_eps (s : List ℚ) (h : ∀ q ∈ s, -1 ≤ q ∧ q < 1) :
    List.Forall₂ (fun d q => |d - q| < 1 / 32768)
      ((decodeAudioData (createPcmBlob s) 1).getD 0 []) s := by
  rw [decodeAudioData_mono]
  unfold createPcmBlob
  simp only [List.getD_cons_zero, List.map_map]
  induction s with
  | nil => exact List.Forall₂.nil
  | cons a l ih =>
    have ha := h a (by simp)
    refine List.Forall₂.cons ?_ (ih fun q hq => h q (by simp [hq]))
    exact pcm_sample_roundtrip ha.1 ha.2

/-- Witness for C6 (amended) at the concrete sample array `[0, 1/2, -1]`. -/
theorem pcm_roundtrip_within_eps_witness :
    List.Forall₂ (fun d q => |d - q| < 1 / 32768)
      ((decodeAudioData (createPcmBlob [0, 1/2, -1]) 1).getD 0 []) [0, 1/2, -1] :=
  pcm_roundtrip_within_eps [0, 1/2, -1] (by intro q hq; fin_cases hq <;> norm_num)

/-- C10: every float sample produced by the PCM16 decoder lies in `[-1, 1)`:
each output is a 16-bit signed integer in `[-32768, 32767]` divided by 32768. -/
theorem decoded_samples_in_range (dataInt16 : List ℤ) (numChannels : ℕ)
    (chan : List ℚ) (q : ℚ)
    (h : ∀ v ∈ dataInt16, -32768 ≤ v ∧ v ≤ 32767)
    (hchan : chan ∈ decodeAudioData dataInt16 numChannels) (hq : q ∈ chan) :
    -1 ≤ q ∧ q < 1 := by
  unfold decodeAudioData at hchan
  simp only [List.mem_map, List.mem_range] at hchan
  obtain ⟨ch, _, rfl⟩ := hchan
  simp only [List.mem_map, List.mem_range] at hq
  obtain ⟨i, _, rfl⟩ := hq
  set idx := i * numChannels + ch with hidx
  by_cases hlt : idx < dataInt16.length
  · have hmem : dataInt16.getD idx 0 ∈ dataInt16 := by
      rw [List.getD_eq_getElem _ _ hlt]
      exact List.getElem_mem _
    obtain ⟨hv1, hv2⟩ := h _ hmem
    exact decodeSample_range hv1 hv2
  · rw [List.getD_eq_default _ _ (by omega)]
    exact decodeSample_range (by norm_num) (by norm_num)

/-- Witness for C10 at the concrete `Int16Array` `[-32768, 0, 32767]`. -/
theorem decoded_samples_in_range_witness :
    -1 ≤ (-1 : ℚ) ∧ (-1 : ℚ) < 1 :=
  decoded_samples_in_range [-32768, 0, 32767] 1 [-1, 0, 32767/32768] (-1)
    (by decide)
    (by rw [decodeAudioData_mono]
        simp only [List.mem_singleton]
        norm_num [decodeSample])
    (by simp)

/-! ## Panel data model (AssistantPanel.tsx)

The component's refs and the conversation history prop are collected into one
`PanelState` record; the `onmessage` session callback and `stopSession` become
functions on it.  Display-only state (`status`, `isListening`, the sentence
wheel) is not modelled: the source never branches on it.

JavaScript's `String.prototype.trim` is modelled by `jsTrim` (strip leading
and trailing whitespace), and string truthiness (`if (s)`) by `s ≠ ""`. -/

/-- JS `String.prototype.trim`: remove leading and trailing whitespace. -/
def jsTrim (s : String) : String :=
  String.mk (((s.data.dropWhile Char.isWhitespace).reverse.dropWhile
    Char.isWhitespace).reverse)

inductive Speaker
  | user
  | assistant
deriving DecidableEq, BEq

/-- The `ConversationTurn` record from `types.ts`: speaker, text, isFinal. -/
structure ConversationTurn where
  speaker : Speaker
  text : String
  isFinal : Bool
deriving DecidableEq, BEq

/-- The source's local `Transcription` interface: `{text, isFinal}`. -/
structure Transcription where
  text : String
  isFinal : Bool
deriving DecidableEq

/-- One scheduled output segment: its start offset on the output clock and
its duration (an `AudioBufferSourceNode` with `start(t)` called). -/
structure Segment where
  start : ℚ
  duration : ℚ
deriving DecidableEq

/-- The panel's mutable state touched by the session callbacks:
`fullInputTranscriptRef`, `fullOutputTranscriptRef`, `liveUserTranscript`,
`liveAssistantTranscript`, `isAwaitingFollowUpRef`, the `conversationHistory`
prop, `nextStartTime`, `sources`, and `isStoppingRef`. -/
structure PanelState where
  fullInputTranscript : String
  fullOutputTranscript : String
  liveUserTranscript : String
  liveAssistantTranscript : String
  awaitingFollowUp : Bool
  conversationHistory : List ConversationTurn
  nextStartTime : ℚ
  sources : List Segment
  isStopping : Bool
deriving DecidableEq

/-- The initial values of the refs/state at mount. -/
def initPanel : PanelState :=
  { fullInputTranscript := "", fullOutputTranscript := "",
    liveUserTranscript := "", liveAssistantTranscript := "",
    awaitingFollowUp := false, conversationHistory := [],
    nextStartTime := 0, sources := [], isStopping := false }

/-- One `LiveServerMessage.serverContent`: the optional input/output
transcription fragments, the `turnComplete` and `interrupted` flags, and the
optional audio chunk `modelTurn.parts[0].inlineData.data`, represented by its
decoded bytes (the empty base64 string, falsy in JS, decodes to `[]`). -/
structure Msg where
  inputTranscription : Option Transcription
  outputTranscription : Option Transcription
  turnComplete : Bool
  audioData : Option (List ℕ)
  interrupted : Bool
deriving DecidableEq

/-- JS `(inputTranscription as Transcription)?.text || ''`. -/
def optText (o : Option Transcription) : String := (o.map Transcription.text).getD ""

/-- JS `(inputTranscription as any)?.isFinal && (inputTranscription as any).text.trim()`
as a boolean. -/
def finalNonempty (o : Option Transcription) : Bool :=
  match o with
  | some t => t.isFinal && !(jsTrim t.text == "")
  | none => false

/-- The values the `ai.live.connect` callbacks close over when `startSession`
runs.  `isMuted` is a `useState` value: the installed `onmessage` callback
keeps the value from the render in which the session was opened; a later
`setIsMuted` produces a new state value this closure never sees. -/
structure SessionClosure where
  mutedAtOpen : Bool
deriving DecidableEq

/-- Duration in seconds of the `AudioBuffer` decoded from an audio chunk of
`numBytes` bytes: `Int16Array` length `numBytes / 2`, one channel, divided by
the output sample rate 24000. -/
def bufferDuration (numBytes : ℕ) : ℚ := ((numBytes / 2 : ℕ) : ℚ) / 24000

/-- Transcript portion of `onmessage` (lines 372-422): update the live
transcripts, and either flush on `turnComplete` or fold final fragments into
the accumulated refs. -/
def handleTranscripts (st : PanelState) (msg : Msg) : PanelState :=
  let finalInput := optText msg.inputTranscription
  let finalOutput := optText msg.outputTranscription
  let st1 : PanelState := { st with
    awaitingFollowUp :=
      if finalNonempty msg.inputTranscription then false else st.awaitingFollowUp,
    liveUserTranscript :=
      if finalInput ≠ "" then finalInput else st.liveUserTranscript,
    liveAssistantTranscript :=
      if finalOutput ≠ "" then finalOutput else st.liveAssistantTranscript }
  if msg.turnComplete then
    let finalInputTranscript := st1.fullInputTranscript ++ " " ++ finalInput
    let finalOutputTranscript := st1.fullOutputTranscript ++ " " ++ finalOutput
    let newTurns : List ConversationTurn :=
      (if jsTrim finalInputTranscript ≠ "" then
        [⟨Speaker.user, jsTrim finalInputTranscript, true⟩] else [])
      ++ (if jsTrim finalOutputTranscript ≠ "" then
        [⟨Speaker.assistant, jsTrim finalOutputTranscript, true⟩] else [])
    { st1 with
      conversationHistory := st1.conversationHistory ++ newTurns,
      fullInputTranscript := "", fullOutputTranscript := "",
      liveUserTranscript := "", liveAssistantTranscript := "",
      awaitingFollowUp := false }
  else
    let st2 : PanelState :=
      match msg.inputTranscription with
      | some t =>
        if t.isFinal then
          { st1 with fullInputTranscript := st1.fullInputTranscript ++ " " ++ t.text,
                     liveUserTranscript := "" }
        else st1
      | none => st1
    match msg.outputTranscription with
    | some t =>
      if t.isFinal then
        { st2 with fullOutputTranscript := st2.fullOutputTranscript ++ " " ++ t.text,
                   liveAssistantTranscript := "", awaitingFollowUp := true }
      else st2
    | none => st2

/-- Audio portion of `onmessage` (lines 424-447): `if (audioData && !isMuted)`
— where `isMuted` is the closure-captured value — set
`nextStartTime = max(nextStartTime, ctx.currentTime)`, schedule the decoded
buffer at `nextStartTime` and advance it by the buffer duration. -/
def handleAudioChunk (cl : SessionClosure) (now : ℚ) (st : PanelState)
    (audioData : Option (List ℕ)) : PanelState :=
  match audioData with
  | none => st
  | some bs =>
    if bs.isEmpty then st
    else if cl.mutedAtOpen then st
    else
      { st with
        nextStartTime := max st.nextStartTime now + bufferDuration bs.length,
        sources := st.sources ++ [⟨max st.nextStartTime now, bufferDuration bs.length⟩] }

/-- Interruption portion of `onmessage` (lines 449-455): stop every source,
clear the set, reset the timeline cursor to 0. -/
def handleInterrupted (st : PanelState) (interrupted : Bool) : PanelState :=
  if interrupted then { st with sources := [], nextStartTime := 0 } else st

/-- The whole `onmessage` callback, in source order: transcripts, then audio
scheduling, then the interrupted branch. -/
def onmessage (cl : SessionClosure) (now : ℚ) (st : PanelState) (msg : Msg) :
    PanelState :=
  handleInterrupted
    (handleAudioChunk cl now (handleTranscripts st msg) msg.audioData)
    msg.interrupted

/-- The source's `findLastIndex` helper (lines 90-97): last index whose
element satisfies the predicate, `-1` when there is none. -/
def findLastIndex (l : List ConversationTurn) (p : ConversationTurn → Bool) : ℤ :=
  match l with
  | [] => -1
  | t :: ts =>
    let r := findLastIndex ts p
    if 0 ≤ r then r + 1
    else if p t then 0 else -1

/-- The source's `stopSession` (lines 186-255) restricted to the state it reads/writes:
the re-entrancy guard on `isStoppingRef`, stopping and clearing the playing
sources, resetting `nextStartTime`, clearing the live transcripts, the
trailing-user-turn flush guarded by
`fullInputTranscriptRef.current.trim() && lastUserTurnIndex < lastAssistantTurnIndex`,
then clearing both accumulated transcripts and releasing the guard. -/
def stopSession (st : PanelState) : PanelState :=
  if st.isStopping then st
  else
    let st1 : PanelState :=
      { st with sources := [], nextStartTime := 0,
                liveUserTranscript := "", liveAssistantTranscript := "" }
    let lastUserTurnIndex :=
      findLastIndex st1.conversationHistory
        (fun t => t.speaker == Speaker.user && t.isFinal)
    let lastAssistantTurnIndex :=
      findLastIndex st1.conversationHistory
        (fun t => t.speaker == Speaker.assistant && t.isFinal)
    let st2 : PanelState :=
      if jsTrim st1.fullInputTranscript ≠ "" ∧ lastUserTurnIndex < lastAssistantTurnIndex then
        { st1 with conversationHistory :=
            st1.conversationHistory ++ [⟨Speaker.user, jsTrim st1.fullInputTranscript, true⟩] }
      else st1
    { st2 with fullInputTranscript := "", fullOutputTranscript := "", isStopping := false }

theorem handleAudioChunk_fields (cl : SessionClosure) (now : ℚ) (st : PanelState)
    (ad : Option (List ℕ)) :
    (handleAudioChunk cl now st ad).conversationHistory = st.conversationHistory ∧
    (handleAudioChunk cl now st ad).fullInputTranscript = st.fullInputTranscript ∧
    (handleAudioChunk cl now st ad).fullOutputTranscript = st.fullOutputTranscript ∧
    (handleAudioChunk cl now st ad).liveUserTranscript = st.liveUserTranscript ∧
    (handleAudioChunk cl now st ad).liveAssistantTranscript = st.liveAssistantTranscript := by
  cases ad with
  | none => exact ⟨rfl, rfl, rfl, rfl, rfl⟩
  | some bs =>
    by_cases h1 : bs.isEmpty <;> by_cases h2 : cl.mutedAtOpen <;>
      simp [handleAudioChunk, h1, h2]

theorem handleInterrupted_fields (st : PanelState) (b : Bool) :
    (handleInterrupted st b).conversationHistory = st.conversationHistory ∧
    (handleInterrupted st b).fullInputTranscript = st.fullInputTranscript ∧
    (handleInterrupted st b).fullOutputTranscript = st.fullOutputTranscript ∧
    (handleInterrupted st b).liveUserTranscript = st.liveUserTranscript ∧
    (handleInterrupted st b).liveAssistantTranscript = st.liveAssistantTranscript := by
  cases b <;> simp [handleInterrupted]

/-- C1: when a turn-complete signal arrives and both accumulated transcripts
(the committed refs plus the current message's fragments) are non-empty after
trimming, the flush appends exactly two turns — the user turn first, the
assistant turn second, each final, each carrying the trimmed accumulated text
— and clears both accumulated refs and both live transcripts. -/
theorem turn_complete_flush (cl : SessionClosure) (now : ℚ) (st : PanelState)
    (msg : Msg)
    (htc : msg.turnComplete = true)
    (hu : jsTrim (st.fullInputTranscript ++ " " ++ optText msg.inputTranscription) ≠ "")
    (ha : jsTrim (st.fullOutputTranscript ++ " " ++ optText msg.outputTranscription) ≠ "") :
    (onmessage cl now st msg).conversationHistory
      = st.conversationHistory
        ++ [⟨Speaker.user,
              jsTrim (st.fullInputTranscript ++ " " ++ optText msg.inputTranscription), true⟩,
            ⟨Speaker.assistant,
              jsTrim (st.fullOutputTranscript ++ " " ++ optText msg.outputTranscription), true⟩]
    ∧ (onmessage cl now st msg).fullInputTranscript = ""
    ∧ (onmessage cl now st msg).fullOutputTranscript = ""
    ∧ (onmessage cl now st msg).liveUserTranscript = ""
    ∧ (onmessage cl now st msg).liveAssistantTranscript = "" := by
  have hA := handleAudioChunk_fields cl now (handleTranscripts st msg) msg.audioData
  have hI := handleInterrupted_fields
    (handleAudioChunk cl now (handleTranscripts st msg) msg.audioData) msg.interrupted
  have hT : (handleTranscripts st msg).conversationHistory
        = st.conversationHistory
          ++ [⟨Speaker.user,
                jsTrim (st.fullInputTranscript ++ " " ++ optText msg.inputTranscription), true⟩,
              ⟨Speaker.assistant,
                jsTrim (st.fullOutputTranscript ++ " " ++ optText msg.outputTranscription), true⟩]
      ∧ (handleTranscripts st msg).fullInputTranscript = ""
      ∧ (handleTranscripts st msg).fullOutputTranscript = ""
      ∧ (handleTranscripts st msg).liveUserTranscript = ""
      ∧ (handleTranscripts st msg).liveAssistantTranscript = "" := by
    unfold handleTranscripts
    simp [htc, hu, ha]
  unfold onmessage
  exact ⟨by rw [hI.1, hA.1, hT.1],
         by rw [hI.2.1, hA.2.1, hT.2.1],
         by rw [hI.2.2.1, hA.2.2.1, hT.2.2.1],
         by rw [hI.2.2.2.1, hA.2.2.2.1, hT.2.2.2.1],
         by rw [hI.2.2.2.2, hA.2.2.2.2, hT.2.2.2.2]⟩

/-- The concrete message used by the C1 witness: a final user fragment, a
final assistant fragment, and the turn-complete flag, in one message. -/
def c1Msg : Msg :=
  { inputTranscription := some ⟨"Hi Rose", true⟩,
    outputTranscription := some ⟨"Hello!", true⟩,
    turnComplete := true, audioData := none, interrupted := false }

/-- Witness for C1 at `initPanel` and `c1Msg`. -/
theorem turn_complete_flush_witness :
    (onmessage ⟨false⟩ 0 initPanel c1Msg).conversationHistory
      = [⟨Speaker.user, "Hi Rose", true⟩, ⟨Speaker.assistant, "Hello!", true⟩]
    ∧ (onmessage ⟨false⟩ 0 initPanel c1Msg).fullInputTranscript = ""
    ∧ (onmessage ⟨false⟩ 0 initPanel c1Msg).liveUserTranscript = "" := by
  have h := turn_complete_flush ⟨false⟩ 0 initPanel c1Msg rfl (by decide) (by decide)
  refine ⟨?_, h.2.1, h.2.2.2.1⟩
  rw [h.1]
  decide

theorem jsTrim_empty : jsTrim "" = "" := rfl

/-- A teardown that finds an empty committed user transcript appends nothing
to history (second-invocation case of C2). -/
theorem stopSession_no_flush (st : PanelState) (hstop : st.isStopping = false)
    (hemp : st.fullInputTranscript = "") :
    (stopSession st).conversationHistory = st.conversationHistory := by
  simp [stopSession, hstop, hemp, jsTrim_empty]

/-- C2: on teardown with the re-entrancy guard clear, a non-empty committed
user transcript, and the last final user turn strictly before the last final
assistant turn in history, `stopSession` appends exactly one final user turn
carrying the trimmed buffer, clears the buffer — and therefore appends
nothing further when invoked a second time. -/
theorem teardown_flushes_trailing_user_turn (st : PanelState)
    (hstop : st.isStopping = false)
    (hne : jsTrim st.fullInputTranscript ≠ "")
    (hlt : findLastIndex st.conversationHistory
             (fun t => t.speaker == Speaker.user && t.isFinal)
         < findLastIndex st.conversationHistory
             (fun t => t.speaker == Speaker.assistant && t.isFinal)) :
    (stopSession st).conversationHistory
        = st.conversationHistory ++ [⟨Speaker.user, jsTrim st.fullInputTranscript, true⟩]
    ∧ (stopSession st).fullInputTranscript = ""
    ∧ (stopSession st).fullOutputTranscript = ""
    ∧ (stopSession (stopSession st)).conversationHistory
        = st.conversationHistory ++ [⟨Speaker.user, jsTrim st.fullInputTranscript, true⟩] := by
  have h1 : stopSession st =
      { st with sources := [], nextStartTime := 0,
                liveUserTranscript := "", liveAssistantTranscript := "",
                conversationHistory :=
                  st.conversationHistory ++ [⟨Speaker.user, jsTrim st.fullInputTranscript, true⟩],
                fullInputTranscript := "", fullOutputTranscript := "",
                isStopping := false } := by
    simp [stopSession, hstop, hne, hlt]
  have h2 := stopSession_no_flush (stopSession st) (by rw [h1]) (by rw [h1])
  exact ⟨by rw [h1], by rw [h1], by rw [h1], by rw [h2, h1]⟩

/-- The concrete pre-teardown state used by the C2 witness: the assistant's
greeting is the last final turn in history and the user's committed buffer
holds unflushed speech. -/
def c2State : PanelState :=
  { initPanel with
      fullInputTranscript := " Hi Rose",
      conversationHistory := [⟨Speaker.assistant, "Welcome back!", true⟩] }

/-- Witness for C2 at `c2State`. -/
theorem teardown_flushes_trailing_user_turn_witness :
    (stopSession c2State).conversationHistory
        = [⟨Speaker.assistant, "Welcome back!", true⟩, ⟨Speaker.user, "Hi Rose", true⟩]
    ∧ (stopSession (stopSession c2State)).conversationHistory
        = [⟨Speaker.assistant, "Welcome back!", true⟩, ⟨Speaker.user, "Hi Rose", true⟩] := by
  have h := teardown_flushes_trailing_user_turn c2State rfl (by decide) (by decide)
  constructor
  · rw [h.1]; decide
  · rw [h.2.2.2]; decide

/-! ## Audio scheduling and the mute flag (C3, C5, C9) -/

/-- A server message carrying only an audio chunk. -/
def chunkMsg (bs : List ℕ) : Msg :=
  { inputTranscription := none, outputTranscription := none,
    turnComplete := false, audioData := some bs, interrupted := false }

/-- A server message carrying only the `interrupted` flag. -/
def interruptMsg : Msg :=
  { inputTranscription := none, outputTranscription := none,
    turnComplete := false, audioData := none, interrupted := true }

/-- The component-level view used for the mute claim: the panel state plus
the component's CURRENT `isMuted` state, the one the speaker button toggles.
The installed session callbacks never read it: they use the `SessionClosure`
value captured when `startSession` ran. -/
structure SystemState where
  panel : PanelState
  isMuted : Bool
deriving DecidableEq

inductive PanelEvent
  | toggleMute
  | serverMessage (now : ℚ) (msg : Msg)

/-- One cooperative step: either the user toggles the speaker button
(`setIsMuted(prev => !prev)`), or the open session's `onmessage` fires. -/
def systemStep (cl : SessionClosure) (s : SystemState) : PanelEvent → SystemState
  | .toggleMute => { s with isMuted := !s.isMuted }
  | .serverMessage now msg => { s with panel := onmessage cl now s.panel msg }

def systemRun (cl : SessionClosure) (s : SystemState) (evs : List PanelEvent) :
    SystemState :=
  evs.foldl (systemStep cl) s

/-- C3 counterexample: a session opened while muted (`SessionClosure` captured
`isMuted = true`).  The user then toggles mute OFF, and the very next audio
chunk arrives: the component's current mute flag is `false`, yet the chunk is
NOT scheduled — `sources` stays empty and the cursor stays 0 — because the
`onmessage` closure reads the value captured at open, not the current state. -/
theorem mute_toggle_counterexample :
    (systemRun ⟨true⟩ ⟨initPanel, true⟩
        [PanelEvent.toggleMute, PanelEvent.serverMessage 0 (chunkMsg [0, 0])]).isMuted
      = false
    ∧ (systemRun ⟨true⟩ ⟨initPanel, true⟩
        [PanelEvent.toggleMute, PanelEvent.serverMessage 0 (chunkMsg [0, 0])]).panel.sources
      = []
    ∧ (systemRun ⟨true⟩ ⟨initPanel, true⟩
        [PanelEvent.toggleMute, PanelEvent.serverMessage 0 (chunkMsg [0, 0])]).panel.nextStartTime
      = 0 :=
  ⟨rfl, rfl, rfl⟩

/-- C3 (amended): the mute flag consulted for each incoming chunk is the one
captured by the session closure at open time.  If the session was opened
muted, every chunk is consumed with no scheduling and no backlog (state
unchanged); if opened unmuted, every non-empty chunk is scheduled; and the
panel outcome of a server message is independent of the component's current
`isMuted` value. -/
theorem mute_captured_at_open (cl : SessionClosure) (now : ℚ) (st : PanelState)
    (ad : Option (List ℕ)) (msg : Msg) (b b' : Bool) :
    (cl.mutedAtOpen = true → handleAudioChunk cl now st ad = st)
    ∧ (∀ bs, cl.mutedAtOpen = false → ad = some bs → bs ≠ [] →
        (handleAudioChunk cl now st ad).sources
          = st.sources ++ [⟨max st.nextStartTime now, bufferDuration bs.length⟩]
        ∧ (handleAudioChunk cl now st ad).nextStartTime
          = max st.nextStartTime now + bufferDuration bs.length)
    ∧ (systemStep cl ⟨st, b⟩ (.serverMessage now msg)).panel
        = (systemStep cl ⟨st, b'⟩ (.serverMessage now msg)).panel := by
  refine ⟨?_, ?_, rfl⟩
  · intro h
    cases ad with
    | none => rfl
    | some bs => by_cases h1 : bs.isEmpty <;> simp [handleAudioChunk, h1, h]
  · intro bs hcl had hbs
    subst had
    cases bs with
    | nil => exact absurd rfl hbs
    | cons a l => simp [handleAudioChunk, hcl]

/-- Witness for C3 (amended): a session opened muted drops a concrete chunk;
a session opened unmuted schedules the same concrete chunk. -/
theorem mute_captured_at_open_witness :
    handleAudioChunk ⟨true⟩ 0 initPanel (some [0, 0]) = initPanel
    ∧ (handleAudioChunk ⟨false⟩ 0 initPanel (some [0, 0])).sources
        = initPanel.sources
          ++ [⟨max initPanel.nextStartTime 0, bufferDuration (List.length [0, 0])⟩] := by
  constructor
  · exact (mute_captured_at_open ⟨true⟩ 0 initPanel (some [0, 0]) interruptMsg
      true false).1 rfl
  · exact ((mute_captured_at_open ⟨false⟩ 0 initPanel (some [0, 0]) interruptMsg
      true false).2.1 [0, 0] rfl rfl (by decide)).1

/-- The durations of the buffers decoded from a list of audio chunks. -/
def chunkDurations (chunks : List (List ℕ)) : List ℚ :=
  chunks.map fun bs => bufferDuration bs.length

/-- The gapless schedule the output queue should produce: segment starts
accumulate the durations, beginning at `t`. -/
def scheduleFrom : ℚ → List ℚ → List Segment
  | _, [] => []
  | t, d :: ds => ⟨t, d⟩ :: scheduleFrom (t + d) ds

/-- Deliver a list of audio chunks to `onmessage` in order, all at output
clock time 0 (all enqueued before playback begins). -/
def feedChunks (cl : SessionClosure) (st : PanelState) (chunks : List (List ℕ)) :
    PanelState :=
  chunks.foldl (fun s bs => onmessage cl 0 s (chunkMsg bs)) st

theorem bufferDuration_nonneg (n : ℕ) : 0 ≤ bufferDuration n := by
  unfold bufferDuration; positivity

theorem onmessage_chunk (cl : SessionClosure) (hcl : cl.mutedAtOpen = false)
    (st : PanelState) (bs : List ℕ) (hbs : bs ≠ []) :
    onmessage cl 0 st (chunkMsg bs)
      = { st with
            nextStartTime := max st.nextStartTime 0 + bufferDuration bs.length,
            sources := st.sources ++ [⟨max st.nextStartTime 0, bufferDuration bs.length⟩] } := by
  cases bs with
  | nil => exact absurd rfl hbs
  | cons a l =>
    simp [onmessage, chunkMsg, handleTranscripts, handleAudioChunk,
      handleInterrupted, hcl, optText, finalNonempty]

theorem feedChunks_spec (cl : SessionClosure) (hcl : cl.mutedAtOpen = false) :
    ∀ (chunks : List (List ℕ)) (st : PanelState), (∀ bs ∈ chunks, bs ≠ []) →
      0 ≤ st.nextStartTime →
      (feedChunks cl st chunks).sources
          = st.sources ++ scheduleFrom st.nextStartTime (chunkDurations chunks)
      ∧ (feedChunks cl st chunks).nextStartTime
          = st.nextStartTime + (chunkDurations chunks).sum
  | [], st, _, _ => by simp [feedChunks, chunkDurations, scheduleFrom]
  | bs :: rest, st, hne, hnn => by
    have hbs : bs ≠ [] := hne bs (by simp)
    have hstep := onmessage_chunk cl hcl st bs hbs
    have hmax : max st.nextStartTime 0 = st.nextStartTime := max_eq_left hnn
    have hd := bufferDuration_nonneg bs.length
    have hrec := feedChunks_spec cl hcl rest
      { st with
          nextStartTime := max st.nextStartTime 0 + bufferDuration bs.length,
          sources := st.sources ++ [⟨max st.nextStartTime 0, bufferDuration bs.length⟩] }
      (fun x hx => hne x (by simp [hx]))
      (by simp only [hmax]; linarith)
    have hfold : feedChunks cl st (bs :: rest)
        = feedChunks cl (onmessage cl 0 st (chunkMsg bs)) rest := rfl
    constructor
    · rw [hfold, hstep, hrec.1]
      simp only [hmax, chunkDurations, List.map_cons, scheduleFrom,
        List.append_assoc, List.singleton_append]
    · rw [hfold, hstep, hrec.2]
      simp only [hmax, chunkDurations, List.map_cons, List.sum_cons]
      ring

theorem scheduleFrom_getD (ds : List ℚ) : ∀ (t : ℚ) (k : ℕ), k < ds.length →
    ((scheduleFrom t ds).getD k ⟨0, 0⟩).start = t + (ds.take k).sum := by
  induction ds with
  | nil => intro t k hk; simp at hk
  | cons d ds ih =>
    intro t k hk
    cases k with
    | zero => simp [scheduleFrom]
    | succ k =>
      simp only [scheduleFrom, List.getD_cons_succ, List.take_succ_cons,
        List.sum_cons]
      rw [ih (t + d) k (by simpa using hk)]
      ring

/-- C5: with an unmuted session, `N` non-empty chunks all enqueued at output
clock time 0 before playback begins produce exactly the gapless schedule: the
scheduled sources are `scheduleFrom 0` of the buffer durations, and segment
`k` starts at the sum of the durations of segments `0..k-1`. -/
theorem gapless_schedule (cl : SessionClosure) (hcl : cl.mutedAtOpen = false)
    (chunks : List (List ℕ)) (hne : ∀ bs ∈ chunks, bs ≠ [])
    (k : ℕ) (hk : k < chunks.length) :
    (feedChunks cl initPanel chunks).sources = scheduleFrom 0 (chunkDurations chunks)
    ∧ ((feedChunks cl initPanel chunks).sources.getD k ⟨0, 0⟩).start
        = ((chunkDurations chunks).take k).sum := by
  have h := feedChunks_spec cl hcl chunks initPanel hne (le_refl 0)
  have h1 : (feedChunks cl initPanel chunks).sources
      = scheduleFrom 0 (chunkDurations chunks) := by
    have := h.1
    simpa [initPanel] using this
  refine ⟨h1, ?_⟩
  rw [h1, scheduleFrom_getD _ 0 k (by simpa [chunkDurations] using hk)]
  simp

/-- Witness for C5 at the concrete chunk sequence `[[0, 0], [0, 0, 0, 0]]`
and `k = 1`. -/
theorem gapless_schedule_witness :
    (feedChunks ⟨false⟩ initPanel [[0, 0], [0, 0, 0, 0]]).sources
        = scheduleFrom 0 (chunkDurations [[0, 0], [0, 0, 0, 0]])
    ∧ ((feedChunks ⟨false⟩ initPanel [[0, 0], [0, 0, 0, 0]]).sources.getD 1 ⟨0, 0⟩).start
        = ((chunkDurations [[0, 0], [0, 0, 0, 0]]).take 1).sum :=
  gapless_schedule ⟨false⟩ rfl [[0, 0], [0, 0, 0, 0]] (by decide) 1 (by decide)

/-- Playback status of an `AudioBufferSourceNode` whose `start()` was called. -/
inductive SourceStatus
  | playing
  | finished
deriving DecidableEq

/-- Web Audio `stop()` on a started node: total — it succeeds whether the
node is still playing or its playback already finished (and `stopSession`
additionally wraps each call in `try/catch`). -/
def stopNode : SourceStatus → SourceStatus := fun _ => SourceStatus.finished

/-- C9: the `interrupted` branch stops all sources, clears the set and resets
the cursor to 0; running it twice, or with no active segments, is the same
no-throw result; and stopping an already-finished handle is tolerated. -/
theorem interrupt_idempotent_safe :
    (∀ (cl : SessionClosure) (now : ℚ) (st : PanelState),
        onmessage cl now st interruptMsg = { st with sources := [], nextStartTime := 0 }
      ∧ onmessage cl now (onmessage cl now st interruptMsg) interruptMsg
          = onmessage cl now st interruptMsg)
    ∧ stopNode SourceStatus.finished = SourceStatus.finished
    ∧ ∀ n, stopNode (stopNode n) = stopNode n :=
  ⟨fun _ _ _ => ⟨rfl, rfl⟩, rfl, fun _ => rfl⟩

/-! ## Greeting playback (C8)

`playGreeting` (AssistantPanel.tsx lines 260-283) guarded by
`if (initialGreeting && !isMuted)`: it awaits `generateSpeech` (which either
returns base64 audio or throws), plays the decoded audio on a short-lived
context, and invokes `onGreetingSpoken` from the source's `onended` handler;
the `catch` block logs the error and sets an error status.  On success the
model assumes playback completes, so the `ended` event fires exactly once. -/

/-- Outcome of the `generateSpeech` call (geminiService.ts lines 297-320):
base64 audio, or a thrown `Failed to generate speech.` error. -/
inductive SynthOutcome
  | ok (audioBase64 : String)
  | failed
deriving DecidableEq

/-- Observable outcome of one `playGreeting` run: how many times
`onGreetingSpoken` was invoked, whether the failure was logged
(`console.error`), and the final status string. -/
structure GreetingRun where
  doneSignals : ℕ
  errorLogged : Bool
  status : String
deriving DecidableEq

def playGreeting (initialGreeting : Option String) (isMuted : Bool)
    (synth : SynthOutcome) (status0 : String) : GreetingRun :=
  match initialGreeting with
  | none => ⟨0, false, status0⟩
  | some g =>
    if g = "" then ⟨0, false, status0⟩
    else if isMuted then ⟨0, false, status0⟩
    else
      match synth with
      | .ok _ => ⟨1, false, "Idle. Click the mic to start."⟩
      | .failed => ⟨0, true, "Error playing greeting."⟩

/-- C8 counterexample: when synthesis fails, the failure is logged and the
error status set, but `onGreetingSpoken` is NOT invoked — the done signal is
delivered zero times, not once, so the host's has-the-greeting-played flag
(`initialGreeting`) is never cleared. -/
theorem greeting_done_missing_on_failure :
    (playGreeting (some "Welcome back!") false SynthOutcome.failed
        "Idle. Click the mic to start.").doneSignals = 0
    ∧ (playGreeting (some "Welcome back!") false SynthOutcome.failed
        "Idle. Click the mic to start.").doneSignals ≠ 1
    ∧ (playGreeting (some "Welcome back!") false SynthOutcome.failed
        "Idle. Click the mic to start.").errorLogged = true := by
  refine ⟨rfl, ?_, rfl⟩
  decide

/-- C8 (amended): for a non-empty greeting with sound on, the done signal is
delivered exactly once on successful synthesis and playback (from the single
`onended` handler), and zero times on synthesis failure, where the error is
logged and the status set to the error message instead. -/
theorem greeting_done_once_iff_synth_ok (g : String) (hg : g ≠ "")
    (audio : String) (status0 : String) :
    playGreeting (some g) false (SynthOutcome.ok audio) status0
        = ⟨1, false, "Idle. Click the mic to start."⟩
    ∧ playGreeting (some g) false SynthOutcome.failed status0
        = ⟨0, true, "Error playing greeting."⟩ := by
  constructor <;> simp [playGreeting, hg]

/-- Witness for C8 (amended) at a concrete greeting. -/
theorem greeting_done_once_iff_synth_ok_witness :
    playGreeting (some "Welcome back, friend!") false (SynthOutcome.ok "UklGRg==")
        "Idle. Click the mic to start."
        = ⟨1, false, "Idle. Click the mic to start."⟩
    ∧ playGreeting (some "Welcome back, friend!") false SynthOutcome.failed
        "Idle. Click the mic to start."
        = ⟨0, true, "Error playing greeting."⟩ :=
  greeting_done_once_iff_synth_ok "Welcome back, friend!" (by decide)
    "UklGRg==" "Idle. Click the mic to start."

/-! ## Reconnect supervisor (C4)

Modelled from the spec: the Reconnect Supervisor of spec §4.5 is implemented
by the repository's second assistant-panel variant (the spec records that the
source used a 2.5 s base delay and 3 max attempts), but that file is not
among the sources here — this variant's `onerror`/`onclose` callbacks only
tear the session down.  The definitions below follow the spec's words:
"if `RetryState.attempt_count < max_attempts`, increment, wait
`base_delay * attempt_count`, then call `open()` again; otherwise transition
to terminal `Error` status and stop retrying", and "a successful reconnect
resets `RetryState.attempt_count` to 0". -/

structure RetryState where
  attemptCount : ℕ
  maxAttempts : ℕ
deriving DecidableEq

inductive SupervisorStatus
  | active
  | errorTerminal
deriving DecidableEq

structure SupervisorState where
  retry : RetryState
  status : SupervisorStatus
deriving DecidableEq

/-- Modelled from the spec: the base reconnect delay, 2.5 seconds. -/
def baseDelay : ℚ := 5 / 2

/-- Modelled from the spec: one transport error.  Returns the new state and
`some delay` when a reopen (`open()` call) is scheduled after that delay,
`none` when no further `open()` is issued. -/
def handleTransportError (s : SupervisorState) : SupervisorState × Option ℚ :=
  if s.retry.attemptCount < s.retry.maxAttempts then
    ({ s with retry := { s.retry with attemptCount := s.retry.attemptCount + 1 } },
      some (baseDelay * (s.retry.attemptCount + 1)))
  else
    ({ s with status := SupervisorStatus.errorTerminal }, none)

/-- Modelled from the spec: a successful session open resets the attempt
counter to 0. -/
def handleOpenSuccess (s : SupervisorState) : SupervisorState :=
  { s with retry := { s.retry with attemptCount := 0 },
           status := SupervisorStatus.active }

/-- Supervisor state right after a successful open with `m` max attempts. -/
def initSupervisor (m : ℕ) : SupervisorState :=
  ⟨⟨0, m⟩, SupervisorStatus.active⟩

/-- State after `n` consecutive transport errors with no intervening success. -/
def errorsN (s : SupervisorState) : ℕ → SupervisorState
  | 0 => s
  | n + 1 => (handleTransportError (errorsN s n)).1

/-- The reopen delay scheduled by consecutive error number `n + 1`
(`none`: that error issued no further `open()`). -/
def reopenDelayOnError (s : SupervisorState) (n : ℕ) : Option ℚ :=
  (handleTransportError (errorsN s n)).2

theorem errorsN_le (m : ℕ) :
    ∀ k, k ≤ m → errorsN (initSupervisor m) k = ⟨⟨k, m⟩, SupervisorStatus.active⟩
  | 0, _ => rfl
  | k + 1, hk => by
    have ih := errorsN_le m k (by omega)
    show (handleTransportError (errorsN (initSupervisor m) k)).1 = _
    rw [ih]
    unfold handleTransportError
    rw [if_pos (show k < m by omega)]

theorem errorsN_after (m j : ℕ) :
    errorsN (initSupervisor m) (m + 1 + j)
      = ⟨⟨m, m⟩, SupervisorStatus.errorTerminal⟩ := by
  induction j with
  | zero =>
    show (handleTransportError (errorsN (initSupervisor m) m)).1 = _
    rw [errorsN_le m m (le_refl m)]
    unfold handleTransportError
    rw [if_neg (show ¬ (m < m) by omega)]
  | succ j ih =>
    show (handleTransportError (errorsN (initSupervisor m) (m + 1 + j))).1 = _
    rw [ih]
    unfold handleTransportError
    rw [if_neg (show ¬ (m < m) by omega)]

/-- C4 counterexample (spec-modelled): with the spec's source values
(`max_attempts = 3`), after exactly 3 consecutive transport errors the
supervisor has NOT reached terminal Error, and the 3rd error still scheduled
a reopen (`open()` call); terminal Error with no further `open()` is only
reached on error number 4. -/
theorem reconnect_counterexample :
    (errorsN (initSupervisor 3) 3).status = SupervisorStatus.active
    ∧ reopenDelayOnError (initSupervisor 3) 2 ≠ none
    ∧ (errorsN (initSupervisor 3) 4).status = SupervisorStatus.errorTerminal := by
  refine ⟨rfl, ?_, rfl⟩
  decide

/-- C4 (amended, spec-modelled): while `attempt_count < max_attempts`, every
transport error schedules a reopen with delay `base_delay * attempt_count`
(strictly increasing across consecutive attempts) and the supervisor stays
active; the first error after `max_attempts` retries are exhausted — error
number `max_attempts + 1` — reaches terminal Error, after which no further
`open()` is ever issued; a successful open resets the attempt counter to 0. -/
theorem reconnect_bounded (m k j : ℕ) (hk : k < m) :
    reopenDelayOnError (initSupervisor m) k = some (baseDelay * (k + 1))
    ∧ (errorsN (initSupervisor m) k).status = SupervisorStatus.active
    ∧ (baseDelay * (k + 1) < baseDelay * (k + 1 + 1))
    ∧ reopenDelayOnError (initSupervisor m) m = none
    ∧ (errorsN (initSupervisor m) (m + 1 + j)).status = SupervisorStatus.errorTerminal
    ∧ reopenDelayOnError (initSupervisor m) (m + j) = none
    ∧ (handleOpenSuccess (errorsN (initSupervisor m) k)).retry.attemptCount = 0 := by
  refine ⟨?_, ?_, ?_, ?_, ?_, ?_, ?_⟩
  · unfold reopenDelayOnError
    rw [errorsN_le m k (le_of_lt hk)]
    unfold handleTransportError
    rw [if_pos (show k < m from hk)]
  · rw [errorsN_le m k (le_of_lt hk)]
  · have hc : (0 : ℚ) ≤ (k : ℚ) := by positivity
    unfold baseDelay
    linarith
  · unfold reopenDelayOnError
    rw [errorsN_le m m (le_refl m)]
    unfold handleTransportError
    rw [if_neg (show ¬ (m < m) by omega)]
  · rw [errorsN_after]
  · cases j with
    | zero =>
      show (handleTransportError (errorsN (initSupervisor m) m)).2 = none
      rw [errorsN_le m m (by omega)]
      unfold handleTransportError
      rw [if_neg (show ¬ (m < m) by omega)]
    | succ j =>
      unfold reopenDelayOnError
      rw [show m + (j + 1) = m + 1 + j by omega, errorsN_after]
      unfold handleTransportError
      rw [if_neg (show ¬ (m < m) by omega)]
  · rw [errorsN_le m k (le_of_lt hk)]
    rfl

/-- Witness for C4 (amended) at `max_attempts = 3`, `k = 1`, `j = 0`: the
second consecutive error schedules a reopen after 5 seconds; the fourth
error is terminal; a success resets the counter. -/
theorem reconnect_bounded_witness :
    reopenDelayOnError (initSupervisor 3) 1 = some 5
    ∧ (errorsN (initSupervisor 3) 4).status = SupervisorStatus.errorTerminal
    ∧ (handleOpenSuccess (errorsN (initSupervisor 3) 1)).retry.attemptCount = 0 := by
  have h := reconnect_bounded 3 1 0 (by omega)
  refine ⟨?_, h.2.2.2.2.1, h.2.2.2.2.2.2⟩
  rw [h.1]
  norm_num [baseDelay]

end ThisIsUS
